import Mathlib

/-!
# Verification of the skyline `IAudioRenderer` audio-renderer core

Shallow embedding of `app/src/main/cpp/skyline/services/audio/IAudioRenderer/IAudioRenderer.h`
and of the behaviour its specification describes for the method bodies that
live outside the header.  Machine `u32` fields are modelled as `Nat` (reads
reduce modulo `2^32`), signed 16-bit samples as `Int` with an explicit
saturation to `[-32768, 32767]`, and byte buffers as `List Nat`.
-/

namespace Skyline

namespace constant

/-- `constant::BufferAlignment = 0x40`, the alignment for all audren buffers
(IAudioRenderer.h line 17). -/
def BufferAlignment : Nat := 0x40

/-- Modelled from the spec: `constant::MixBufferSize` is declared in `audio.h`,
which is not among the sources; only its use in the fixed capacity of
`IAudioRenderer::sampleBuffer` (IAudioRenderer.h line 73) is visible.  The
upstream repository fixes it to 960 samples; any fixed compile-time value
plays the same role in the development. -/
def MixBufferSize : Nat := 960

/-- Modelled from the spec: `constant::ChannelCount` is declared in `audio.h`,
which is not among the sources; the renderer produces interleaved stereo
output, so the upstream value is 2. -/
def ChannelCount : Nat := 2

end constant

/-- `AudioRendererParameters` (IAudioRenderer.h lines 24-38): thirteen
naturally-packed `u32` fields.  The unnamed reserved field `_unk0_` is spelled
`unk0` here. -/
structure AudioRendererParameters where
  sampleRate : Nat
  sampleCount : Nat
  mixBufferCount : Nat
  subMixCount : Nat
  voiceCount : Nat
  sinkCount : Nat
  effectCount : Nat
  performanceManagerCount : Nat
  voiceDropEnable : Nat
  splitterCount : Nat
  splitterDestinationDataCount : Nat
  unk0 : Nat
  revision : Nat
  deriving DecidableEq, Repr

/-- `UpdateDataHeader` (IAudioRenderer.h lines 44-58): sixteen naturally-packed
`u32` fields; the reserved array `_unk1_[4]` is split into its four words. -/
structure UpdateDataHeader where
  revision : Nat
  behaviorSize : Nat
  memoryPoolSize : Nat
  voiceSize : Nat
  voiceResourceSize : Nat
  effectSize : Nat
  mixSize : Nat
  sinkSize : Nat
  performanceManagerSize : Nat
  unk0 : Nat
  elapsedFrameCountInfoSize : Nat
  unk1a : Nat
  unk1b : Nat
  unk1c : Nat
  unk1d : Nat
  totalSize : Nat
  deriving DecidableEq, Repr

/-- Little-endian serialisation of one `u32` into four bytes. -/
def u32le (x : Nat) : List Nat :=
  [x % 256, x / 256 % 256, x / 65536 % 256, x / 16777216 % 256]

/-- The field words of `AudioRendererParameters` in declaration order
(IAudioRenderer.h lines 25-37). -/
def parametersWords (p : AudioRendererParameters) : List Nat :=
  [p.sampleRate, p.sampleCount, p.mixBufferCount, p.subMixCount, p.voiceCount,
   p.sinkCount, p.effectCount, p.performanceManagerCount, p.voiceDropEnable,
   p.splitterCount, p.splitterDestinationDataCount, p.unk0, p.revision]

/-- The in-memory bytes of a naturally-packed `AudioRendererParameters`. -/
def serializeParameters (p : AudioRendererParameters) : List Nat :=
  List.flatten (List.map u32le (parametersWords p))

/-- The field words of `UpdateDataHeader` in declaration order
(IAudioRenderer.h lines 45-57). -/
def headerWords (h : UpdateDataHeader) : List Nat :=
  [h.revision, h.behaviorSize, h.memoryPoolSize, h.voiceSize,
   h.voiceResourceSize, h.effectSize, h.mixSize, h.sinkSize,
   h.performanceManagerSize, h.unk0, h.elapsedFrameCountInfoSize,
   h.unk1a, h.unk1b, h.unk1c, h.unk1d, h.totalSize]

/-- The in-memory bytes of a naturally-packed `UpdateDataHeader`. -/
def serializeHeader (h : UpdateDataHeader) : List Nat :=
  List.flatten (List.map u32le (headerWords h))

/-- Read the little-endian `u32` stored at byte offset `i`. -/
def readU32 (l : List Nat) (i : Nat) : Nat :=
  l.getD i 0 + 256 * l.getD (i + 1) 0 + 65536 * l.getD (i + 2) 0
    + 16777216 * l.getD (i + 3) 0

theorem length_u32le (x : Nat) : (u32le x).length = 4 := rfl

theorem readU32_u32le_append (x : Nat) (rest : List Nat) :
    readU32 (u32le x ++ rest) 0 = x % 2 ^ 32 := by
  simp only [u32le, readU32, List.cons_append, List.nil_append,
    List.getD_cons_zero, List.getD_cons_succ]
  omega

theorem getD_cons_four (a b c d : Nat) (rest : List Nat) (k : Nat) :
    (a :: b :: c :: d :: rest).getD (4 + k) 0 = rest.getD k 0 := by
  have h : 4 + k = (((k + 1) + 1) + 1) + 1 := by omega
  rw [h]
  simp only [List.getD_cons_succ]

theorem readU32_u32le_shift (x : Nat) (rest : List Nat) (k : Nat) :
    readU32 (u32le x ++ rest) (4 + k) = readU32 rest k := by
  simp only [u32le, readU32, List.cons_append, List.nil_append]
  rw [getD_cons_four,
    show 4 + k + 1 = 4 + (k + 1) from by omega, getD_cons_four,
    show 4 + k + 2 = 4 + (k + 2) from by omega, getD_cons_four,
    show 4 + k + 3 = 4 + (k + 3) from by omega, getD_cons_four]

/-- Reading word `i` of a packed sequence of `u32` words recovers the word,
reduced modulo `2^32`. -/
theorem readU32_join_words (words : List Nat) (i : Nat) (hi : i < words.length) :
    readU32 (List.flatten (List.map u32le words)) (4 * i) = words.getD i 0 % 2 ^ 32 := by
  induction words generalizing i with
  | nil => exact absurd hi (by simp)
  | cons w ws ih =>
    cases i with
    | zero =>
      simpa using readU32_u32le_append w (List.flatten (List.map u32le ws))
    | succ j =>
      have hj : j < ws.length := by simpa using hi
      have hshift : 4 * (j + 1) = 4 + 4 * j := by omega
      rw [List.map_cons, List.flatten_cons, hshift,
        readU32_u32le_shift w (List.flatten (List.map u32le ws)) (4 * j)]
      simpa using ih j hj

theorem length_join_u32le (words : List Nat) :
    (List.flatten (List.map u32le words)).length = 4 * words.length := by
  induction words with
  | nil => rfl
  | cons w ws ih =>
    rw [List.map_cons, List.flatten_cons, List.length_append, length_u32le, ih,
      List.length_cons]
    omega

/-- C7: `AudioRendererParameters` is a fixed `0x34`-byte, naturally-packed
little-endian record whose fields appear, in declaration order, at offsets
`0x00, 0x04, ..., 0x30`: sampleRate, sampleCount, mixBufferCount, subMixCount,
voiceCount, sinkCount, effectCount, performanceManagerCount, voiceDropEnable,
splitterCount, splitterDestinationDataCount, reserved (`_unk0_`), revision. -/
theorem parameters_layout (p : AudioRendererParameters)
    (hw : ∀ w ∈ parametersWords p, w < 2 ^ 32) :
    (serializeParameters p).length = 0x34 ∧
    readU32 (serializeParameters p) 0x00 = p.sampleRate ∧
    readU32 (serializeParameters p) 0x04 = p.sampleCount ∧
    readU32 (serializeParameters p) 0x08 = p.mixBufferCount ∧
    readU32 (serializeParameters p) 0x0C = p.subMixCount ∧
    readU32 (serializeParameters p) 0x10 = p.voiceCount ∧
    readU32 (serializeParameters p) 0x14 = p.sinkCount ∧
    readU32 (serializeParameters p) 0x18 = p.effectCount ∧
    readU32 (serializeParameters p) 0x1C = p.performanceManagerCount ∧
    readU32 (serializeParameters p) 0x20 = p.voiceDropEnable ∧
    readU32 (serializeParameters p) 0x24 = p.splitterCount ∧
    readU32 (serializeParameters p) 0x28 = p.splitterDestinationDataCount ∧
    readU32 (serializeParameters p) 0x2C = p.unk0 ∧
    readU32 (serializeParameters p) 0x30 = p.revision := by
  have hlen : (parametersWords p).length = 13 := rfl
  have hread : ∀ i, i < 13 →
      readU32 (serializeParameters p) (4 * i) = (parametersWords p).getD i 0 % 2 ^ 32 := by
    intro i hi
    exact readU32_join_words (parametersWords p) i (by omega)
  refine ⟨?_, ?_, ?_, ?_, ?_, ?_, ?_, ?_, ?_, ?_, ?_, ?_, ?_, ?_⟩
  · rw [serializeParameters, length_join_u32le, hlen]
  all_goals first
  | (rw [show (0x00 : Nat) = 4 * 0 from rfl, hread 0 (by omega)]
     exact Nat.mod_eq_of_lt (hw _ (by simp [parametersWords])))
  | (rw [show (0x04 : Nat) = 4 * 1 from rfl, hread 1 (by omega)]
     exact Nat.mod_eq_of_lt (hw _ (by simp [parametersWords])))
  | (rw [show (0x08 : Nat) = 4 * 2 from rfl, hread 2 (by omega)]
     exact Nat.mod_eq_of_lt (hw _ (by simp [parametersWords])))
  | (rw [show (0x0C : Nat) = 4 * 3 from rfl, hread 3 (by omega)]
     exact Nat.mod_eq_of_lt (hw _ (by simp [parametersWords])))
  | (rw [show (0x10 : Nat) = 4 * 4 from rfl, hread 4 (by omega)]
     exact Nat.mod_eq_of_lt (hw _ (by simp [parametersWords])))
  | (rw [show (0x14 : Nat) = 4 * 5 from rfl, hread 5 (by omega)]
     exact Nat.mod_eq_of_lt (hw _ (by simp [parametersWords])))
  | (rw [show (0x18 : Nat) = 4 * 6 from rfl, hread 6 (by omega)]
     exact Nat.mod_eq_of_lt (hw _ (by simp [parametersWords])))
  | (rw [show (0x1C : Nat) = 4 * 7 from rfl, hread 7 (by omega)]
     exact Nat.mod_eq_of_lt (hw _ (by simp [parametersWords])))
  | (rw [show (0x20 : Nat) = 4 * 8 from rfl, hread 8 (by omega)]
     exact Nat.mod_eq_of_lt (hw _ (by simp [parametersWords])))
  | (rw [show (0x24 : Nat) = 4 * 9 from rfl, hread 9 (by omega)]
     exact Nat.mod_eq_of_lt (hw _ (by simp [parametersWords])))
  | (rw [show (0x28 : Nat) = 4 * 10 from rfl, hread 10 (by omega)]
     exact Nat.mod_eq_of_lt (hw _ (by simp [parametersWords])))
  | (rw [show (0x2C : Nat) = 4 * 11 from rfl, hread 11 (by omega)]
     exact Nat.mod_eq_of_lt (hw _ (by simp [parametersWords])))
  | (rw [show (0x30 : Nat) = 4 * 12 from rfl, hread 12 (by omega)]
     exact Nat.mod_eq_of_lt (hw _ (by simp [parametersWords])))

/-- C8: `UpdateDataHeader` is a fixed `0x40`-byte, naturally-packed record
whose fields appear, in declaration order, at offsets `0x00, 0x04, ..., 0x3C`:
revision, behaviorSize, memoryPoolSize, voiceSize, voiceResourceSize,
effectSize, mixSize, sinkSize, performanceManagerSize, reserved (`_unk0_`),
elapsedFrameCountInfoSize, reserved `_unk1_[4]`, totalSize. -/
theorem updateDataHeader_layout (h : UpdateDataHeader)
    (hw : ∀ w ∈ headerWords h, w < 2 ^ 32) :
    (serializeHeader h).length = 0x40 ∧
    readU32 (serializeHeader h) 0x00 = h.revision ∧
    readU32 (serializeHeader h) 0x04 = h.behaviorSize ∧
    readU32 (serializeHeader h) 0x08 = h.memoryPoolSize ∧
    readU32 (serializeHeader h) 0x0C = h.voiceSize ∧
    readU32 (serializeHeader h) 0x10 = h.voiceResourceSize ∧
    readU32 (serializeHeader h) 0x14 = h.effectSize ∧
    readU32 (serializeHeader h) 0x18 = h.mixSize ∧
    readU32 (serializeHeader h) 0x1C = h.sinkSize ∧
    readU32 (serializeHeader h) 0x20 = h.performanceManagerSize ∧
    readU32 (serializeHeader h) 0x24 = h.unk0 ∧
    readU32 (serializeHeader h) 0x28 = h.elapsedFrameCountInfoSize ∧
    readU32 (serializeHeader h) 0x2C = h.unk1a ∧
    readU32 (serializeHeader h) 0x30 = h.unk1b ∧
    readU32 (serializeHeader h) 0x34 = h.unk1c ∧
    readU32 (serializeHeader h) 0x38 = h.unk1d ∧
    readU32 (serializeHeader h) 0x3C = h.totalSize := by
  have hlen : (headerWords h).length = 16 := rfl
  have hread : ∀ i, i < 16 →
      readU32 (serializeHeader h) (4 * i) = (headerWords h).getD i 0 % 2 ^ 32 := by
    intro i hi
    exact readU32_join_words (headerWords h) i (by omega)
  refine ⟨?_, ?_, ?_, ?_, ?_, ?_, ?_, ?_, ?_, ?_, ?_, ?_, ?_, ?_, ?_, ?_, ?_⟩
  · rw [serializeHeader, length_join_u32le, hlen]
  all_goals first
  | (rw [show (0x00 : Nat) = 4 * 0 from rfl, hread 0 (by omega)]
     exact Nat.mod_eq_of_lt (hw _ (by simp [headerWords])))
  | (rw [show (0x04 : Nat) = 4 * 1 from rfl, hread 1 (by omega)]
     exact Nat.mod_eq_of_lt (hw _ (by simp [headerWords])))
  | (rw [show (0x08 : Nat) = 4 * 2 from rfl, hread 2 (by omega)]
     exact Nat.mod_eq_of_lt (hw _ (by simp [headerWords])))
  | (rw [show (0x0C : Nat) = 4 * 3 from rfl, hread 3 (by omega)]
     exact Nat.mod_eq_of_lt (hw _ (by simp [headerWords])))
  | (rw [show (0x10 : Nat) = 4 * 4 from rfl, hread 4 (by omega)]
     exact Nat.mod_eq_of_lt (hw _ (by simp [headerWords])))
  | (rw [show (0x14 : Nat) = 4 * 5 from rfl, hread 5 (by omega)]
     exact Nat.mod_eq_of_lt (hw _ (by simp [headerWords])))
  | (rw [show (0x18 : Nat) = 4 * 6 from rfl, hread 6 (by omega)]
     exact Nat.mod_eq_of_lt (hw _ (by simp [headerWords])))
  | (rw [show (0x1C : Nat) = 4 * 7 from rfl, hread 7 (by omega)]
     exact Nat.mod_eq_of_lt (hw _ (by simp [headerWords])))
  | (rw [show (0x20 : Nat) = 4 * 8 from rfl, hread 8 (by omega)]
     exact Nat.mod_eq_of_lt (hw _ (by simp [headerWords])))
  | (rw [show (0x24 : Nat) = 4 * 9 from rfl, hread 9 (by omega)]
     exact Nat.mod_eq_of_lt (hw _ (by simp [headerWords])))
  | (rw [show (0x28 : Nat) = 4 * 10 from rfl, hread 10 (by omega)]
     exact Nat.mod_eq_of_lt (hw _ (by simp [headerWords])))
  | (rw [show (0x2C : Nat) = 4 * 11 from rfl, hread 11 (by omega)]
     exact Nat.mod_eq_of_lt (hw _ (by simp [headerWords])))
  | (rw [show (0x30 : Nat) = 4 * 12 from rfl, hread 12 (by omega)]
     exact Nat.mod_eq_of_lt (hw _ (by simp [headerWords])))
  | (rw [show (0x34 : Nat) = 4 * 13 from rfl, hread 13 (by omega)]
     exact Nat.mod_eq_of_lt (hw _ (by simp [headerWords])))
  | (rw [show (0x38 : Nat) = 4 * 14 from rfl, hread 14 (by omega)]
     exact Nat.mod_eq_of_lt (hw _ (by simp [headerWords])))
  | (rw [show (0x3C : Nat) = 4 * 15 from rfl, hread 15 (by omega)]
     exact Nat.mod_eq_of_lt (hw _ (by simp [headerWords])))

/-- Modelled from the spec: `AudioOutState` lives in `audio.h`, missing from
the sources; only the playback states {Stopped (initial), Started} are
described, mutated only by Start/Stop. -/
inductive AudioOutState where
  | Stopped : AudioOutState
  | Started : AudioOutState
  deriving DecidableEq, Repr

/-- Modelled from the spec: `MemoryPool` (from `memory_pool.h`, missing from
the sources) tracks one guest memory region with attach state in
{Invalid, RequestAttach, Attached, RequestDetach, Detached}. -/
inductive PoolState where
  | Invalid : PoolState
  | RequestAttach : PoolState
  | Attached : PoolState
  | RequestDetach : PoolState
  | Detached : PoolState
  deriving DecidableEq, Repr

structure MemoryPool where
  address : Nat
  size : Nat
  poolState : PoolState
  deriving DecidableEq, Repr

/-- Modelled from the spec: a wave buffer (from `voice.h`, missing from the
sources) is a guest-supplied chunk of decoded PCM samples queued per voice. -/
structure WaveBuffer where
  samples : List Int
  deriving DecidableEq, Repr

/-- Modelled from the spec: `Voice` (from `voice.h`, missing from the sources)
carries a stable index, pitch/volume, its target sub-mix bus, a bounded queue
of pending wave buffers and an enabled flag.  Pitch is a resampling step with
unity `1`; volume a linear integer gain with unity `1`. -/
structure Voice where
  index : Nat
  enabled : Bool
  pitch : Nat
  volume : Int
  targetBus : Nat
  waveBufferQueue : List WaveBuffer
  deriving DecidableEq, Repr

/-- Modelled from the spec: `Effect` (from `effect.h`, missing from the
sources) is a type tag, a target bus, an enable flag and a per-type parameter
block; the per-type DSP kernels are pluggable processing stages. -/
structure Effect where
  typeTag : Nat
  targetBus : Nat
  enabled : Bool
  paramBlock : List Nat
  deriving DecidableEq, Repr

/-- The state of one `IAudioRenderer` instance, after the private members of
the class (IAudioRenderer.h lines 66-74): parameters, the audio-track and
release-event collaborators (opaque handles plus an open counter for the
track), the entity vectors, the fixed sample accumulator and the playback
state. -/
structure RendererState where
  parameters : AudioRendererParameters
  trackHandle : Nat
  trackOpens : Nat
  releaseEvent : Nat
  memoryPools : List MemoryPool
  effects : List Effect
  voices : List Voice
  sampleBuffer : List Int
  playbackState : AudioOutState
  deriving DecidableEq, Repr

/-- Capacity of `sampleBuffer`:
`std::array<i16, constant::MixBufferSize * constant::ChannelCount>`
(IAudioRenderer.h line 73) — a compile-time constant. -/
def sampleBufferCapacity : Nat := constant.MixBufferSize * constant.ChannelCount

/-- Construction (IAudioRenderer.h line 91; body missing from the sources).
Modelled from the spec: entity vectors are sized exactly once from the
parameters, the track is opened, the release event created, playback starts
`Stopped` (the in-class initialiser on line 74 of the header). -/
def construct (p : AudioRendererParameters) (trackHandle releaseEvent : Nat) :
    RendererState :=
  { parameters := p
    trackHandle := trackHandle
    trackOpens := 1
    releaseEvent := releaseEvent
    memoryPools := List.replicate (p.voiceCount + p.effectCount)
      { address := 0, size := 0, poolState := PoolState.Invalid }
    effects := List.replicate p.effectCount
      { typeTag := 0, targetBus := 0, enabled := false, paramBlock := [] }
    voices := List.replicate p.voiceCount
      { index := 0, enabled := false, pitch := 1, volume := 1, targetBus := 0,
        waveBufferQueue := [] }
    sampleBuffer := List.replicate sampleBufferCapacity 0
    playbackState := AudioOutState.Stopped }

/-- Saturating clamp of a mixed sample to the legal signed 16-bit range
`[-32768, 32767]` — the store into the `i16` array never wraps around. -/
def saturate (x : Int) : Int :=
  if x < -32768 then -32768 else if 32767 < x then 32767 else x

/-- Resize a bus buffer to exactly `n` samples, zero-padding on the right;
sub-mix buffers have the fixed per-tick size. -/
def resizeBus (n : Nat) (l : List Int) : List Int :=
  List.take n l ++ List.replicate (n - l.length) 0

/-- Modelled from the spec: one tick of a voice (from `voice.h`, missing from
the sources) — decode the head of the wave-buffer queue, resample by the
pitch step, apply the volume gain; a disabled voice or an empty queue yields
silence.  `n` is the interleaved sample count of the tick. -/
def voiceOutput (n : Nat) (v : Voice) : List Int :=
  if v.enabled then
    match v.waveBufferQueue with
    | [] => List.replicate n 0
    | wb :: _ => List.map (fun i => v.volume * wb.samples.getD (i * v.pitch) 0)
        (List.range n)
  else List.replicate n 0

/-- Accumulate an interleaved contribution into sub-mix bus `i`. -/
def addIntoBus (buses : List (List Int)) (i : Nat) (xs : List Int) :
    List (List Int) :=
  buses.set i (List.zipWith (fun a b => a + b) (buses.getD i []) xs)

/-- Step 2 of MixFinalBuffer: mix every voice into its target bus. -/
def mixVoices (n : Nat) (voices : List Voice) (buses : List (List Int)) :
    List (List Int) :=
  voices.foldl
    (fun bs v => addIntoBus bs (v.targetBus % bs.length) (voiceOutput n v)) buses

/-- A pluggable per-type effect kernel: per-revision DSP internals are outside
the core, so the mixing pass is verified for every kernel. -/
def EffectImpl : Type := Effect → List Int → List Int

/-- Step 3 of MixFinalBuffer: apply every enabled effect, in guest order, to
its target bus; a disabled effect costs only the flag check. -/
def applyEffects (impl : EffectImpl) (effects : List Effect)
    (buses : List (List Int)) : List (List Int) :=
  effects.foldl
    (fun bs e =>
      if e.enabled then
        bs.set (e.targetBus % bs.length)
          (resizeBus ((bs.getD (e.targetBus % bs.length) []).length)
            (impl e (bs.getD (e.targetBus % bs.length) [])))
      else bs)
    buses

/-- Step 4 of MixFinalBuffer: pointwise sum of the buses. -/
def sumBuses (n : Nat) (buses : List (List Int)) : List Int :=
  buses.foldl (fun acc b => List.zipWith (fun a x => a + x) acc b)
    (List.replicate n 0)

/-- `IAudioRenderer::MixFinalBuffer` (IAudioRenderer.h line 80; body missing
from the sources).  Modelled from the spec: clear all sub-mix buses, mix all
enabled voices, apply all enabled effects in order, and sum the buses into the
final interleaved buffer with a saturating clamp; while `Stopped` the voice
and effect steps are skipped and silence is produced.  The tick always
produces exactly `sampleCount` interleaved frames. -/
def MixFinalBuffer (impl : EffectImpl) (r : RendererState) : List Int :=
  let n := r.parameters.sampleCount * constant.ChannelCount
  let buses0 := List.replicate r.parameters.mixBufferCount (List.replicate n (0 : Int))
  let buses :=
    if r.playbackState = AudioOutState.Started then
      applyEffects impl r.effects (mixVoices n r.voices buses0)
    else buses0
  List.map saturate (sumBuses n buses)

/-- Store freshly mixed output into the fixed-capacity accumulator,
overwriting the whole array (the mix is written and the rest of the fixed
array carries no reused data). -/
def storeBuffer (out : List Int) : List Int :=
  List.take sampleBufferCapacity (out ++ List.replicate sampleBufferCapacity 0)

/-- One tick stores the freshly mixed output into the fixed-capacity sample
accumulator, overwriting it completely. -/
def tick (impl : EffectImpl) (r : RendererState) : RendererState :=
  { r with sampleBuffer := storeBuffer (MixFinalBuffer impl r) }

/-- `IAudioRenderer::GetSampleRate` (IAudioRenderer.h line 101; body missing
from the sources).  Modelled from the spec: returns the stored parameter. -/
def GetSampleRate (r : RendererState) : Nat := r.parameters.sampleRate

/-- `IAudioRenderer::GetSampleCount` (IAudioRenderer.h line 106; body missing
from the sources).  Modelled from the spec: returns the stored parameter. -/
def GetSampleCount (r : RendererState) : Nat := r.parameters.sampleCount

/-- `IAudioRenderer::GetMixBufferCount` (IAudioRenderer.h line 111; body
missing from the sources).  Modelled from the spec: returns the stored
parameter. -/
def GetMixBufferCount (r : RendererState) : Nat := r.parameters.mixBufferCount

/-- `IAudioRenderer::Start` (IAudioRenderer.h line 126; body missing from the
sources).  Modelled from the spec: Stopped to Started, opening/resuming the
audio track; idempotent, so a repeated Start changes nothing and does not
reopen the track. -/
def StartOp (r : RendererState) : RendererState :=
  if r.playbackState = AudioOutState.Started then r
  else { r with playbackState := AudioOutState.Started, trackOpens := r.trackOpens + 1 }

/-- `IAudioRenderer::Stop` (IAudioRenderer.h line 131; body missing from the
sources).  Modelled from the spec: Started to Stopped, flushing the track
silently; idempotent. -/
def StopOp (r : RendererState) : RendererState :=
  if r.playbackState = AudioOutState.Stopped then r
  else { r with playbackState := AudioOutState.Stopped }

/-- `IAudioRenderer::QuerySystemEvent` (IAudioRenderer.h line 136; body
missing from the sources).  Modelled from the spec: returns a handle to the
release event owned by the renderer, leaving the state untouched. -/
def QuerySystemEvent (r : RendererState) : Nat × RendererState :=
  (r.releaseEvent, r)

/-- Sum of the declared section sizes of an update blob header. -/
def headerSectionSum (h : UpdateDataHeader) : Nat :=
  h.behaviorSize + h.memoryPoolSize + h.voiceSize + h.voiceResourceSize
    + h.effectSize + h.mixSize + h.sinkSize + h.performanceManagerSize
    + h.elapsedFrameCountInfoSize

/-- The header-level size invariant: declared section sizes plus the
`0x40`-byte header account exactly for `totalSize`. -/
def sectionSizesConsistent (h : UpdateDataHeader) : Bool :=
  headerSectionSum h + 0x40 = h.totalSize

/-- Error statuses RequestUpdate can fail with at the header level. -/
inductive UpdateError where
  | unsupportedRevision : UpdateError
  | sizeMismatch : UpdateError
  deriving DecidableEq, Repr

/-- The entity vectors an update decodes into. -/
def Entities : Type := List MemoryPool × List Voice × List Effect

/-- Slice the post-header bytes of an update blob into its sections, in the
fixed encounter order declared by the header. -/
def sliceSections (h : UpdateDataHeader) (blob : List Nat) : List (List Nat) :=
  [List.take h.behaviorSize blob,
   List.take h.memoryPoolSize (List.drop h.behaviorSize blob),
   List.take h.voiceSize (List.drop (h.behaviorSize + h.memoryPoolSize) blob),
   List.take h.voiceResourceSize
     (List.drop (h.behaviorSize + h.memoryPoolSize + h.voiceSize) blob),
   List.take h.effectSize
     (List.drop (h.behaviorSize + h.memoryPoolSize + h.voiceSize + h.voiceResourceSize) blob)]

/-- A section decoder: consumes the sliced sections and updates the entity
vectors in place; the per-record formats are revision-gated and outside the
sources, so the update path is verified for every decoder. -/
def ApplySections : Type :=
  UpdateDataHeader → List (List Nat) → Entities → Entities

/-- `IAudioRenderer::RequestUpdate` (IAudioRenderer.h line 121; body missing
from the sources).  Modelled from the spec: validates that the header
revision equals the renderer's configured revision and that the declared
section sizes sum exactly to the total size; any mismatch fails the entire
call atomically with an error status and no entity mutated.  On success the
blob is sliced into sections and decoded into the entity vectors. -/
def RequestUpdate (decode : ApplySections) (r : RendererState)
    (h : UpdateDataHeader) (blob : List Nat) :
    Except UpdateError Unit × RendererState :=
  if h.revision ≠ r.parameters.revision then
    (Except.error UpdateError.unsupportedRevision, r)
  else if ¬ sectionSizesConsistent h then
    (Except.error UpdateError.sizeMismatch, r)
  else
    let ents := decode h (sliceSections h blob) (r.memoryPools, r.voices, r.effects)
    (Except.ok (), { r with memoryPools := ents.1, voices := ents.2.1, effects := ents.2.2 })

/-- The mutating operations of the renderer's control surface, used to state
lifetime invariants over arbitrary call sequences. -/
inductive RendererOp where
  | start : RendererOp
  | stop : RendererOp
  | requestUpdate : UpdateDataHeader → List Nat → RendererOp

/-- Apply one operation.  Per the spec, a successful RequestUpdate while
Started also runs the per-tick mix (`UpdateAudio`); while Stopped it only
applies the update; a failed one changes nothing. -/
def applyOp (decode : ApplySections) (impl : EffectImpl) :
    RendererOp → RendererState → RendererState
  | RendererOp.start, r => StartOp r
  | RendererOp.stop, r => StopOp r
  | RendererOp.requestUpdate h blob, r =>
    let out := RequestUpdate decode r h blob
    if out.1.isOk ∧ out.2.playbackState = AudioOutState.Started then tick impl out.2
    else out.2

/-- Apply a sequence of operations in order. -/
def applyOps (decode : ApplySections) (impl : EffectImpl)
    (ops : List RendererOp) (r : RendererState) : RendererState :=
  ops.foldl (fun s op => applyOp decode impl op s) r

theorem getD_replicate_of_lt {α : Type} {n i : Nat} {a d : α} (h : i < n) :
    (List.replicate n a).getD i d = a := by
  induction n generalizing i with
  | zero => omega
  | succ m ih =>
    cases i with
    | zero => simp [List.replicate]
    | succ j =>
      rw [List.replicate, List.getD_cons_succ]
      exact ih (by omega)

theorem zipAdd_replicate_zero_left {n : Nat} {xs : List Int} (h : xs.length = n) :
    List.zipWith (fun a x => a + x) (List.replicate n (0 : Int)) xs = xs := by
  induction xs generalizing n with
  | nil => simp
  | cons y ys ih =>
    cases n with
    | zero => simp at h
    | succ m =>
      rw [List.replicate, List.zipWith_cons_cons, ih (by simpa using h)]
      simp

theorem zipAdd_replicate_zero_right {n : Nat} {xs : List Int} (h : xs.length = n) :
    List.zipWith (fun a x => a + x) xs (List.replicate n (0 : Int)) = xs := by
  induction xs generalizing n with
  | nil => simp
  | cons y ys ih =>
    cases n with
    | zero => simp at h
    | succ m =>
      rw [List.replicate, List.zipWith_cons_cons, ih (by simpa using h)]
      simp

theorem foldl_zipAdd_zeros {n : Nat} (l : List (List Int)) (acc : List Int)
    (hl : ∀ b ∈ l, b = List.replicate n (0 : Int)) (ha : acc.length = n) :
    l.foldl (fun acc b => List.zipWith (fun a x => a + x) acc b) acc = acc := by
  induction l generalizing acc with
  | nil => rfl
  | cons b bs ih =>
    rw [List.foldl_cons, hl b (by simp), zipAdd_replicate_zero_right ha]
    exact ih acc (fun x hx => hl x (by simp [hx])) ha

theorem sumBuses_allZero {n : Nat} (buses : List (List Int))
    (hz : ∀ b ∈ buses, b = List.replicate n (0 : Int)) :
    sumBuses n buses = List.replicate n 0 := by
  unfold sumBuses
  exact foldl_zipAdd_zeros buses _ hz (by simp)

theorem sumBuses_set {n : Nat} (buses : List (List Int)) (j : Nat) (xs : List Int)
    (hz : ∀ b ∈ buses, b = List.replicate n (0 : Int)) (hj : j < buses.length)
    (hx : xs.length = n) :
    sumBuses n (buses.set j xs) = xs := by
  induction buses generalizing j with
  | nil => simp at hj
  | cons b bs ih =>
    cases j with
    | zero =>
      unfold sumBuses
      rw [List.set_cons_zero, List.foldl_cons, zipAdd_replicate_zero_left hx]
      exact foldl_zipAdd_zeros bs xs (fun x hxm => hz x (by simp [hxm])) hx
    | succ k =>
      have hb : b = List.replicate n (0 : Int) := hz b (by simp)
      have step : sumBuses n ((b :: bs).set (k + 1) xs) = sumBuses n (bs.set k xs) := by
        unfold sumBuses
        rw [List.set_cons_succ, List.foldl_cons, hb,
          zipAdd_replicate_zero_right (by simp)]
      rw [step]
      exact ih k (fun x hxm => hz x (by simp [hxm])) (by simpa using hj)

theorem length_voiceOutput (n : Nat) (v : Voice) : (voiceOutput n v).length = n := by
  unfold voiceOutput
  by_cases he : v.enabled <;> simp [he]
  cases v.waveBufferQueue <;> simp

theorem length_resizeBus (m : Nat) (l : List Int) : (resizeBus m l).length = m := by
  simp [resizeBus]
  omega

theorem mem_setD {α : Type} {l : List α} {j : Nat} {x b : α}
    (hb : b ∈ l.set j x) : b ∈ l ∨ (j < l.length ∧ b = x) := by
  by_cases hj : j < l.length
  · rcases List.mem_or_eq_of_mem_set hb with h | h
    · exact Or.inl h
    · exact Or.inr ⟨hj, h⟩
  · rw [List.set_eq_of_length_le (by omega)] at hb
    exact Or.inl hb

theorem getD_mem_of_lt {α : Type} {l : List α} {j : Nat} {d : α}
    (hj : j < l.length) : l.getD j d ∈ l := by
  rw [List.getD_eq_getElem l d hj]
  exact List.getElem_mem hj

theorem addIntoBus_zeros {n : Nat} {buses : List (List Int)} {j : Nat}
    (hz : ∀ b ∈ buses, b = List.replicate n (0 : Int)) :
    ∀ b ∈ addIntoBus buses j (List.replicate n (0 : Int)),
      b = List.replicate n (0 : Int) := by
  intro b hb
  rcases mem_setD hb with h | ⟨hj, h⟩
  · exact hz b h
  · rw [h, hz _ (getD_mem_of_lt hj), zipAdd_replicate_zero_left (by simp)]

theorem mixVoices_zeros {n : Nat} (voices : List Voice) (buses : List (List Int))
    (hq : ∀ v ∈ voices, v.waveBufferQueue = [])
    (hz : ∀ b ∈ buses, b = List.replicate n (0 : Int)) :
    ∀ b ∈ mixVoices n voices buses, b = List.replicate n (0 : Int) := by
  induction voices generalizing buses with
  | nil => exact hz
  | cons v vs ih =>
    have hout : voiceOutput n v = List.replicate n (0 : Int) := by
      unfold voiceOutput
      rw [hq v (by simp)]
      by_cases he : v.enabled <;> simp [he]
    unfold mixVoices
    rw [List.foldl_cons, hout]
    exact ih _ (fun x hx => hq x (by simp [hx])) (addIntoBus_zeros hz)

theorem addIntoBus_length {n : Nat} {buses : List (List Int)} {j : Nat}
    {xs : List Int} (hl : ∀ b ∈ buses, b.length = n) (hx : xs.length = n) :
    ∀ b ∈ addIntoBus buses j xs, b.length = n := by
  intro b hb
  rcases mem_setD hb with h | ⟨hj, h⟩
  · exact hl b h
  · rw [h, List.length_zipWith, hl _ (getD_mem_of_lt hj), hx]
    omega

theorem mixVoices_length {n : Nat} (voices : List Voice) (buses : List (List Int))
    (hl : ∀ b ∈ buses, b.length = n) :
    ∀ b ∈ mixVoices n voices buses, b.length = n := by
  induction voices generalizing buses with
  | nil => exact hl
  | cons v vs ih =>
    unfold mixVoices
    rw [List.foldl_cons]
    exact ih _ (addIntoBus_length hl (length_voiceOutput n v))

theorem applyEffects_disabled (impl : EffectImpl) (effects : List Effect)
    (buses : List (List Int)) (he : ∀ e ∈ effects, e.enabled = false) :
    applyEffects impl effects buses = buses := by
  induction effects generalizing buses with
  | nil => rfl
  | cons e es ih =>
    unfold applyEffects
    rw [List.foldl_cons, he e (by simp)]
    exact ih buses (fun x hx => he x (by simp [hx]))

theorem applyEffects_length {n : Nat} (impl : EffectImpl) (effects : List Effect)
    (buses : List (List Int)) (hl : ∀ b ∈ buses, b.length = n) :
    ∀ b ∈ applyEffects impl effects buses, b.length = n := by
  induction effects generalizing buses with
  | nil => exact hl
  | cons e es ih =>
    unfold applyEffects
    rw [List.foldl_cons]
    by_cases hen : e.enabled
    · rw [if_pos hen]
      refine ih _ ?_
      intro b hb
      rcases mem_setD hb with h | ⟨hj, h⟩
      · exact hl b h
      · rw [h, length_resizeBus]
        exact hl _ (getD_mem_of_lt hj)
    · rw [if_neg hen]
      exact ih buses hl

theorem sumBuses_length {n : Nat} (buses : List (List Int))
    (hl : ∀ b ∈ buses, b.length = n) : (sumBuses n buses).length = n := by
  unfold sumBuses
  have gen : ∀ (l : List (List Int)) (acc : List Int), (∀ b ∈ l, b.length = n) →
      acc.length = n →
      (l.foldl (fun acc b => List.zipWith (fun a x => a + x) acc b) acc).length = n := by
    intro l
    induction l with
    | nil => intro acc _ ha; exact ha
    | cons b bs ih =>
      intro acc hlm ha
      rw [List.foldl_cons]
      refine ih _ (fun x hx => hlm x (by simp [hx])) ?_
      rw [List.length_zipWith, ha, hlm b (by simp)]
      omega
  exact gen buses _ hl (by simp)

theorem saturate_lower (x : Int) : -32768 ≤ saturate x := by
  unfold saturate
  split_ifs <;> omega

theorem saturate_upper (x : Int) : saturate x ≤ 32767 := by
  unfold saturate
  split_ifs <;> omega

theorem saturate_zero : saturate 0 = 0 := rfl

theorem requestUpdate_snd_parameters (decode : ApplySections) (r : RendererState)
    (h : UpdateDataHeader) (blob : List Nat) :
    ((RequestUpdate decode r h blob).2).parameters = r.parameters ∧
    ((RequestUpdate decode r h blob).2).releaseEvent = r.releaseEvent := by
  unfold RequestUpdate
  split_ifs <;> exact ⟨rfl, rfl⟩

theorem applyOp_preserves (decode : ApplySections) (impl : EffectImpl)
    (op : RendererOp) (r : RendererState) :
    (applyOp decode impl op r).parameters = r.parameters ∧
    (applyOp decode impl op r).releaseEvent = r.releaseEvent := by
  cases op with
  | start =>
    show (StartOp r).parameters = _ ∧ (StartOp r).releaseEvent = _
    unfold StartOp
    split_ifs <;> exact ⟨rfl, rfl⟩
  | stop =>
    show (StopOp r).parameters = _ ∧ (StopOp r).releaseEvent = _
    unfold StopOp
    split_ifs <;> exact ⟨rfl, rfl⟩
  | requestUpdate h blob =>
    have hr := requestUpdate_snd_parameters decode r h blob
    unfold applyOp
    dsimp only
    split_ifs with hc
    · exact hr
    · exact hr

theorem applyOps_preserves (decode : ApplySections) (impl : EffectImpl)
    (ops : List RendererOp) (r : RendererState) :
    (applyOps decode impl ops r).parameters = r.parameters ∧
    (applyOps decode impl ops r).releaseEvent = r.releaseEvent := by
  induction ops generalizing r with
  | nil => exact ⟨rfl, rfl⟩
  | cons op rest ih =>
    unfold applyOps
    rw [List.foldl_cons]
    have h1 := applyOp_preserves decode impl op r
    have h2 := ih (applyOp decode impl op r)
    unfold applyOps at h2
    exact ⟨h2.1.trans h1.1, h2.2.trans h1.2⟩

theorem map_constant {α : Type} (l : List α) (c : Int) :
    List.map (fun _ => c) l = List.replicate l.length c := by
  induction l with
  | nil => rfl
  | cons a as ih => rw [List.map_cons, ih]; rfl

theorem startOp_playback (r : RendererState) :
    (StartOp r).playbackState = AudioOutState.Started := by
  unfold StartOp
  split_ifs with h
  · exact h
  · rfl

theorem startOp_idem (r : RendererState) : StartOp (StartOp r) = StartOp r := by
  by_cases h : r.playbackState = AudioOutState.Started
  · have e1 : StartOp r = r := by unfold StartOp; rw [if_pos h]
    rw [e1, e1]
  · have e1 : StartOp r
        = { r with playbackState := AudioOutState.Started, trackOpens := r.trackOpens + 1 } := by
      unfold StartOp; rw [if_neg h]
    rw [e1]
    unfold StartOp
    rw [if_pos rfl]

theorem stopOp_playback (r : RendererState) :
    (StopOp r).playbackState = AudioOutState.Stopped := by
  unfold StopOp
  split_ifs with h
  · exact h
  · rfl

theorem stopOp_idem (r : RendererState) : StopOp (StopOp r) = StopOp r := by
  by_cases h : r.playbackState = AudioOutState.Stopped
  · have e1 : StopOp r = r := by unfold StopOp; rw [if_pos h]
    rw [e1, e1]
  · have e1 : StopOp r = { r with playbackState := AudioOutState.Stopped } := by
      unfold StopOp; rw [if_neg h]
    rw [e1]
    unfold StopOp
    rw [if_pos rfl]

/-- C1: a RequestUpdate whose header fails the header-level validation — the
declared section sizes do not account exactly for `totalSize`, or the header
revision differs from the renderer's configured revision — fails the whole
call with an error status and mutates no entity and no renderer state, for
every section decoder and effect kernel. -/
theorem requestUpdate_header_mismatch (decode : ApplySections) (impl : EffectImpl)
    (r : RendererState) (h : UpdateDataHeader) (blob : List Nat)
    (hbad : sectionSizesConsistent h = false ∨ h.revision ≠ r.parameters.revision) :
    (RequestUpdate decode r h blob).1.isOk = false ∧
    (RequestUpdate decode r h blob).2 = r ∧
    applyOp decode impl (RendererOp.requestUpdate h blob) r = r := by
  have key : (RequestUpdate decode r h blob).1.isOk = false ∧
      (RequestUpdate decode r h blob).2 = r := by
    unfold RequestUpdate
    by_cases hrev : h.revision ≠ r.parameters.revision
    · rw [if_pos hrev]
      exact ⟨rfl, rfl⟩
    · rw [if_neg hrev]
      have hsz : ¬ sectionSizesConsistent h = true := by
        rcases hbad with hb | hb
        · simp [hb]
        · exact absurd hb hrev
      rw [if_pos hsz]
      exact ⟨rfl, rfl⟩
  refine ⟨key.1, key.2, ?_⟩
  unfold applyOp
  dsimp only
  rw [if_neg, key.2]
  intro hc
  have hc1 := hc.1
  rw [key.1] at hc1
  exact Bool.false_ne_true hc1

/-- C3: for every construction input and every sequence of control-surface
operations, GetSampleRate, GetSampleCount and GetMixBufferCount return exactly
the `sampleRate`, `sampleCount` and `mixBufferCount` constructor inputs. -/
theorem getters_return_constructor_inputs (decode : ApplySections)
    (impl : EffectImpl) (ops : List RendererOp) (p : AudioRendererParameters)
    (th ev : Nat) :
    GetSampleRate (applyOps decode impl ops (construct p th ev)) = p.sampleRate ∧
    GetSampleCount (applyOps decode impl ops (construct p th ev)) = p.sampleCount ∧
    GetMixBufferCount (applyOps decode impl ops (construct p th ev)) = p.mixBufferCount := by
  have h := (applyOps_preserves decode impl ops (construct p th ev)).1
  unfold GetSampleRate GetSampleCount GetMixBufferCount
  rw [h]
  exact ⟨rfl, rfl, rfl⟩

/-- C4: the playback state machine has exactly the states
{Stopped (initial at construction), Started}; Start always lands in Started
and is idempotent — a second Start changes nothing, in particular it does not
reopen the track — and Stop always lands in Stopped and is idempotent. -/
theorem playback_state_machine (p : AudioRendererParameters) (th ev : Nat)
    (r : RendererState) (s : AudioOutState) :
    (s = AudioOutState.Stopped ∨ s = AudioOutState.Started) ∧
    (construct p th ev).playbackState = AudioOutState.Stopped ∧
    (StartOp r).playbackState = AudioOutState.Started ∧
    StartOp (StartOp r) = StartOp r ∧
    (StartOp (StartOp r)).trackOpens = (StartOp r).trackOpens ∧
    (StopOp r).playbackState = AudioOutState.Stopped ∧
    StopOp (StopOp r) = StopOp r := by
  refine ⟨?_, rfl, startOp_playback r, startOp_idem r, ?_, stopOp_playback r,
    stopOp_idem r⟩
  · cases s with
    | Stopped => exact Or.inl rfl
    | Started => exact Or.inr rfl
  · rw [startOp_idem r]

/-- C9: QuerySystemEvent returns the handle of the release event created at
construction, does not mutate the renderer, and the handle it returns is
unchanged by every sequence of control-surface operations, so repeated calls
over the instance's lifetime return the identical handle. -/
theorem querySystemEvent_constant (decode : ApplySections) (impl : EffectImpl)
    (ops : List RendererOp) (r : RendererState) :
    (QuerySystemEvent (applyOps decode impl ops r)).1 = (QuerySystemEvent r).1 ∧
    (QuerySystemEvent r).2 = r := by
  exact ⟨(applyOps_preserves decode impl ops r).2, rfl⟩

/-- C2: when every voice has an empty wave-buffer queue and every effect is
disabled, MixFinalBuffer produces exactly
`sampleCount * constant.ChannelCount` samples, all zero, for every effect
kernel and in either playback state. -/
theorem mixFinalBuffer_silent (impl : EffectImpl) (r : RendererState)
    (hq : ∀ v ∈ r.voices, v.waveBufferQueue = [])
    (he : ∀ e ∈ r.effects, e.enabled = false) :
    MixFinalBuffer impl r
      = List.replicate (r.parameters.sampleCount * constant.ChannelCount) 0 := by
  unfold MixFinalBuffer
  dsimp only
  set n := r.parameters.sampleCount * constant.ChannelCount with hn
  have hz0 : ∀ b ∈ List.replicate r.parameters.mixBufferCount
      (List.replicate n (0 : Int)), b = List.replicate n 0 :=
    fun b hb => List.eq_of_mem_replicate hb
  by_cases hp : r.playbackState = AudioOutState.Started
  · rw [if_pos hp, applyEffects_disabled impl r.effects _ he,
      sumBuses_allZero _ (mixVoices_zeros r.voices _ hq hz0),
      List.map_replicate, saturate_zero]
  · rw [if_neg hp, sumBuses_allZero _ hz0, List.map_replicate, saturate_zero]

/-- C5: the final summation clamps with saturation to `[-32768, 32767]` —
above-range sums store `32767`, below-range sums store `-32768`, every output
sample is inside the range (no wraparound) — and a single enabled voice
playing a constant-valued PCM wave buffer at unity pitch and volume with all
effects disabled yields that constant repeated, saturated to the range. -/
theorem mixFinalBuffer_constant_voice (impl : EffectImpl) (r : RendererState)
    (v : Voice) (wb : WaveBuffer) (rest : List WaveBuffer) (c x y : Int)
    (hplay : r.playbackState = AudioOutState.Started)
    (hbc : 0 < r.parameters.mixBufferCount)
    (hv : r.voices = [v])
    (hen : v.enabled = true) (hpitch : v.pitch = 1) (hvol : v.volume = 1)
    (hqv : v.waveBufferQueue = wb :: rest)
    (hc : ∀ i, i < r.parameters.sampleCount * constant.ChannelCount →
      wb.samples.getD i 0 = c)
    (heff : ∀ e ∈ r.effects, e.enabled = false)
    (hx : 32767 < x) (hy : y < -32768) :
    MixFinalBuffer impl r
      = List.replicate (r.parameters.sampleCount * constant.ChannelCount)
        (saturate c) ∧
    saturate x = 32767 ∧ saturate y = -32768 ∧
    (∀ s ∈ MixFinalBuffer impl r, -32768 ≤ s ∧ s ≤ 32767) := by
  have hmain : MixFinalBuffer impl r
      = List.replicate (r.parameters.sampleCount * constant.ChannelCount)
        (saturate c) := by
    unfold MixFinalBuffer
    dsimp only
    set n := r.parameters.sampleCount * constant.ChannelCount with hn
    rw [if_pos hplay, hv]
    have hvout : voiceOutput n v = List.replicate n c := by
      unfold voiceOutput
      rw [hqv]
      simp only [hen, if_true]
      have hptw : ∀ i ∈ List.range n, v.volume * wb.samples.getD (i * v.pitch) 0
          = (fun _ => c) i := by
        intro i hi
        rw [hpitch, hvol, Nat.mul_one, one_mul]
        exact hc i (List.mem_range.mp hi)
      rw [List.map_congr_left hptw, map_constant, List.length_range]
    unfold mixVoices
    rw [List.foldl_cons, List.foldl_nil, hvout]
    unfold addIntoBus
    rw [List.length_replicate]
    have hjlt : v.targetBus % r.parameters.mixBufferCount
        < r.parameters.mixBufferCount := Nat.mod_lt _ hbc
    rw [getD_replicate_of_lt hjlt, zipAdd_replicate_zero_left (by simp)]
    rw [applyEffects_disabled impl r.effects _ heff]
    rw [sumBuses_set _ _ _ (fun b hb => List.eq_of_mem_replicate hb)
      (by rw [List.length_replicate]; exact hjlt) (by simp)]
    rw [List.map_replicate]
  refine ⟨hmain, ?_, ?_, ?_⟩
  · unfold saturate
    rw [if_neg (by omega), if_pos hx]
  · unfold saturate
    rw [if_pos hy]
  · intro s hs
    rw [hmain] at hs
    rw [List.eq_of_mem_replicate hs]
    exact ⟨saturate_lower c, saturate_upper c⟩

/-- A small concrete configuration: one voice, one effect, two mix buffers,
two samples per tick. -/
def paramsA : AudioRendererParameters :=
  { sampleRate := 48000
    sampleCount := 2
    mixBufferCount := 2
    subMixCount := 0
    voiceCount := 1
    sinkCount := 1
    effectCount := 1
    performanceManagerCount := 0
    voiceDropEnable := 0
    splitterCount := 0
    splitterDestinationDataCount := 0
    unk0 := 0
    revision := 7 }

/-- The same configuration with a different per-tick sample count. -/
def paramsB : AudioRendererParameters := { paramsA with sampleCount := 3 }

/-- C6 as stated is false: the accumulator's capacity is the compile-time
constant `MixBufferSize * ChannelCount` (IAudioRenderer.h line 73), which
cannot equal `sampleCount * channelCount` for every instance, since
`sampleCount` varies per instance while the capacity does not. -/
theorem sampleBuffer_capacity_counterexample :
    ¬ ∀ p : AudioRendererParameters,
        (construct p 0 0).sampleBuffer.length
          = p.sampleCount * constant.ChannelCount := by
  intro hall
  have e1 := hall paramsA
  have e2 := hall paramsB
  have hAB : paramsA.sampleCount * constant.ChannelCount
      = paramsB.sampleCount * constant.ChannelCount := by
    rw [← e1, ← e2]
    rfl
  exact absurd hAB (by decide)

/-- C6 (amended): the sample accumulator is a fixed-capacity interleaved
buffer of the compile-time capacity `MixBufferSize * ChannelCount`; every
tick overwrites it with the fresh mix independently of its previous contents
(no stale data survives), and MixFinalBuffer always produces exactly
`sampleCount` frames, i.e. `sampleCount * ChannelCount` interleaved
samples. -/
theorem sampleBuffer_tick_invariants (impl : EffectImpl) (r : RendererState)
    (b : List Int) (p : AudioRendererParameters) (th ev : Nat) :
    (construct p th ev).sampleBuffer.length
      = constant.MixBufferSize * constant.ChannelCount ∧
    (tick impl r).sampleBuffer.length
      = constant.MixBufferSize * constant.ChannelCount ∧
    (tick impl { r with sampleBuffer := b }).sampleBuffer
      = (tick impl r).sampleBuffer ∧
    (MixFinalBuffer impl r).length
      = r.parameters.sampleCount * constant.ChannelCount := by
  refine ⟨by simp [construct, sampleBufferCapacity], ?_, rfl, ?_⟩
  · show (storeBuffer (MixFinalBuffer impl r)).length = _
    unfold storeBuffer
    rw [List.length_take, List.length_append, List.length_replicate]
    have : min sampleBufferCapacity
        ((MixFinalBuffer impl r).length + sampleBufferCapacity)
        = sampleBufferCapacity := by omega
    rw [this, sampleBufferCapacity]
  · unfold MixFinalBuffer
    dsimp only
    set n := r.parameters.sampleCount * constant.ChannelCount with hn
    rw [List.length_map]
    have hl0 : ∀ x ∈ List.replicate r.parameters.mixBufferCount
        (List.replicate n (0 : Int)), x.length = n := by
      intro x hx
      rw [List.eq_of_mem_replicate hx, List.length_replicate]
    by_cases hp : r.playbackState = AudioOutState.Started
    · rw [if_pos hp]
      exact sumBuses_length _
        (applyEffects_length impl r.effects _ (mixVoices_length r.voices _ hl0))
    · rw [if_neg hp]
      exact sumBuses_length _ hl0

/-- C10: every final-buffer sample is a signed 16-bit value — the mixer's
clamp range is exactly `[-32768, 32767]`: the clamp never leaves it, is the
identity inside it, and every MixFinalBuffer output sample lies inside it —
and the accumulator's capacity is the compile-time constant
`MixBufferSize * ChannelCount`, identical for any two instances regardless of
their per-instance parameters. -/
theorem sample_range_and_capacity (p q : AudioRendererParameters) (th ev : Nat)
    (x y : Int) (impl : EffectImpl) (r : RendererState)
    (hy1 : -32768 ≤ y) (hy2 : y ≤ 32767) :
    (construct p th ev).sampleBuffer.length
      = constant.MixBufferSize * constant.ChannelCount ∧
    (construct p th ev).sampleBuffer.length
      = (construct q th ev).sampleBuffer.length ∧
    -32768 ≤ saturate x ∧ saturate x ≤ 32767 ∧ saturate y = y ∧
    (∀ s ∈ MixFinalBuffer impl r, -32768 ≤ s ∧ s ≤ 32767) := by
  refine ⟨by simp [construct, sampleBufferCapacity], rfl, saturate_lower x,
    saturate_upper x, ?_, ?_⟩
  · unfold saturate
    rw [if_neg (by omega), if_neg (by omega)]
  · intro s hs
    unfold MixFinalBuffer at hs
    dsimp only at hs
    rcases List.mem_map.mp hs with ⟨a, _, ha⟩
    rw [← ha]
    exact ⟨saturate_lower a, saturate_upper a⟩

/-- A decoder that keeps every entity unchanged. -/
def trivialDecode : ApplySections := fun _ _ ents => ents

/-- An effect kernel that leaves its target bus unchanged. -/
def idEffectImpl : EffectImpl := fun _ bus => bus

/-- A freshly constructed renderer over `paramsA`. -/
def initialA : RendererState := construct paramsA 0 1

/-- An update header whose declared revision matches `paramsA` but whose
section sizes (all zero, plus the `0x40`-byte header) cannot account for its
`totalSize` of zero. -/
def headerBad : UpdateDataHeader :=
  { revision := 7
    behaviorSize := 0
    memoryPoolSize := 0
    voiceSize := 0
    voiceResourceSize := 0
    effectSize := 0
    mixSize := 0
    sinkSize := 0
    performanceManagerSize := 0
    unk0 := 0
    elapsedFrameCountInfoSize := 0
    unk1a := 0
    unk1b := 0
    unk1c := 0
    unk1d := 0
    totalSize := 0 }

/-- A consistent update header with distinct section sizes. -/
def headerW : UpdateDataHeader :=
  { revision := 7
    behaviorSize := 1
    memoryPoolSize := 2
    voiceSize := 3
    voiceResourceSize := 4
    effectSize := 5
    mixSize := 6
    sinkSize := 7
    performanceManagerSize := 8
    unk0 := 0
    elapsedFrameCountInfoSize := 9
    unk1a := 0
    unk1b := 0
    unk1c := 0
    unk1d := 0
    totalSize := 109 }

/-- An enabled voice at unity pitch and volume playing a constant-valued PCM
wave buffer whose value 40000 exceeds the signed 16-bit range. -/
def voiceW : Voice :=
  { index := 0
    enabled := true
    pitch := 1
    volume := 1
    targetBus := 0
    waveBufferQueue := [{ samples := List.replicate 8 40000 }] }

/-- `initialA` in the Started state with `voiceW` as its only voice. -/
def oneVoiceState : RendererState :=
  { initialA with voices := [voiceW], playbackState := AudioOutState.Started }

theorem requestUpdate_header_mismatch_witness :
    (RequestUpdate trivialDecode initialA headerBad []).1.isOk = false ∧
    (RequestUpdate trivialDecode initialA headerBad []).2 = initialA ∧
    applyOp trivialDecode idEffectImpl (RendererOp.requestUpdate headerBad [])
      initialA = initialA :=
  requestUpdate_header_mismatch trivialDecode idEffectImpl initialA headerBad []
    (Or.inl (by decide))

theorem mixFinalBuffer_silent_witness :
    MixFinalBuffer idEffectImpl initialA
      = List.replicate (initialA.parameters.sampleCount * constant.ChannelCount) 0 :=
  mixFinalBuffer_silent idEffectImpl initialA (by decide) (by decide)

theorem mixFinalBuffer_constant_voice_witness :
    MixFinalBuffer idEffectImpl oneVoiceState
      = List.replicate
          (oneVoiceState.parameters.sampleCount * constant.ChannelCount)
          (saturate 40000) ∧
    saturate 40000 = 32767 ∧ saturate (-40000) = -32768 := by
  have h := mixFinalBuffer_constant_voice idEffectImpl oneVoiceState voiceW
    { samples := List.replicate 8 40000 } [] 40000 40000 (-40000)
    (by decide) (by decide) (by decide) (by decide) (by decide) (by decide)
    (by decide) (by decide) (by decide) (by decide) (by decide)
  exact ⟨h.1, h.2.1, h.2.2.1⟩

theorem parameters_layout_witness :
    (serializeParameters paramsA).length = 0x34 ∧
    readU32 (serializeParameters paramsA) 0x00 = paramsA.sampleRate ∧
    readU32 (serializeParameters paramsA) 0x04 = paramsA.sampleCount ∧
    readU32 (serializeParameters paramsA) 0x08 = paramsA.mixBufferCount ∧
    readU32 (serializeParameters paramsA) 0x0C = paramsA.subMixCount ∧
    readU32 (serializeParameters paramsA) 0x10 = paramsA.voiceCount ∧
    readU32 (serializeParameters paramsA) 0x14 = paramsA.sinkCount ∧
    readU32 (serializeParameters paramsA) 0x18 = paramsA.effectCount ∧
    readU32 (serializeParameters paramsA) 0x1C = paramsA.performanceManagerCount ∧
    readU32 (serializeParameters paramsA) 0x20 = paramsA.voiceDropEnable ∧
    readU32 (serializeParameters paramsA) 0x24 = paramsA.splitterCount ∧
    readU32 (serializeParameters paramsA) 0x28 = paramsA.splitterDestinationDataCount ∧
    readU32 (serializeParameters paramsA) 0x2C = paramsA.unk0 ∧
    readU32 (serializeParameters paramsA) 0x30 = paramsA.revision :=
  parameters_layout paramsA (by decide)

theorem updateDataHeader_layout_witness :
    (serializeHeader headerW).length = 0x40 ∧
    readU32 (serializeHeader headerW) 0x00 = headerW.revision ∧
    readU32 (serializeHeader headerW) 0x04 = headerW.behaviorSize ∧
    readU32 (serializeHeader headerW) 0x08 = headerW.memoryPoolSize ∧
    readU32 (serializeHeader headerW) 0x0C = headerW.voiceSize ∧
    readU32 (serializeHeader headerW) 0x10 = headerW.voiceResourceSize ∧
    readU32 (serializeHeader headerW) 0x14 = headerW.effectSize ∧
    readU32 (serializeHeader headerW) 0x18 = headerW.mixSize ∧
    readU32 (serializeHeader headerW) 0x1C = headerW.sinkSize ∧
    readU32 (serializeHeader headerW) 0x20 = headerW.performanceManagerSize ∧
    readU32 (serializeHeader headerW) 0x24 = headerW.unk0 ∧
    readU32 (serializeHeader headerW) 0x28 = headerW.elapsedFrameCountInfoSize ∧
    readU32 (serializeHeader headerW) 0x2C = headerW.unk1a ∧
    readU32 (serializeHeader headerW) 0x30 = headerW.unk1b ∧
    readU32 (serializeHeader headerW) 0x34 = headerW.unk1c ∧
    readU32 (serializeHeader headerW) 0x38 = headerW.unk1d ∧
    readU32 (serializeHeader headerW) 0x3C = headerW.totalSize :=
  updateDataHeader_layout headerW (by decide)

theorem sample_range_and_capacity_witness :
    (construct paramsA 0 0).sampleBuffer.length
      = constant.MixBufferSize * constant.ChannelCount ∧
    -32768 ≤ saturate 100000 ∧ saturate 100000 ≤ 32767 ∧ saturate 5 = 5 := by
  have h := sample_range_and_capacity paramsA paramsB 0 0 100000 5 idEffectImpl
    initialA (by decide) (by decide)
  exact ⟨h.1, h.2.2.1, h.2.2.2.1, h.2.2.2.2.1⟩

end Skyline
